import Mathlib

/-!
A verification development for `src/neo/StreamDB.rs`, the single-file
path-addressed document store ("StreamDB") embedded in this repository.

The Rust source is embedded shallowly: the store's mutable state (the paged
file, the three versioned roots, the page cache and its statistics, the
quick-mode flag, the live-transaction list and the free-list emptiness
counter) becomes the structure `DB`; every operation becomes a function
`DB → Res α` where `Res` carries the result together with the post state even
on error, matching Rust semantics in which mutations performed before an
early `?` return persist.  Machine integers are modelled as `Int`/`Nat` with
explicit wrapping where the source casts.  Loops over on-disk structures take
an explicit fuel argument so that every definition is structurally recursive
and kernel-evaluable on concrete inputs.

Modelling notes, fixed once for the whole file:
* The embedding fixes the `use_compression = false` configuration of
  `open_db` (the spec treats the codec as an external collaborator), so the
  stored payload of a page equals the payload handed to `write_raw_page` and
  `read_raw_page` returns the stored bytes without a decompression step.
* The source reads pages either through `mmap` or through positional
  `seek`+`read`; both paths move the same bytes, and the model exposes a
  single read.  Reads and writes addressed past the end of the file fail with
  an end-of-file style error; every scenario examined below stays inside the
  file.
* `Uuid::new_v4()` draws a random identifier; the model takes the fresh
  identifier as an explicit argument of `write_document`.
* Page headers and page payloads are kept structurally (a `PageHeader` next
  to the payload-region bytes); the source's header (de)serialisation is the
  evident little-endian round trip on these fields.
* The struct field `empty_free_list_count` is used by `allocate_page` but
  never declared in the source's `StreamDb` struct (the source does not
  compile as given); the model carries it in `DB` starting at 0.
-/

namespace StreamDB

/-! ## Little-endian byte helpers -/

/-- Little-endian bytes of `n`, `w` bytes wide (the value is taken mod `2^(8*w)`). -/
def natLE : Nat → Nat → List Nat
  | 0, _ => []
  | w + 1, n => n % 256 :: natLE w (n / 256)

/-- The `Nat` read little-endian from the first `w` entries of `bs` (missing bytes read 0). -/
def leNat : Nat → List Nat → Nat
  | 0, _ => 0
  | _ + 1, [] => 0
  | w + 1, b :: bs => b % 256 + 256 * leNat w bs

/-- Two's-complement signed read of `w` little-endian bytes. -/
def leInt (w : Nat) (bs : List Nat) : Int :=
  let n := leNat w bs
  if n < 2 ^ (8 * w - 1) then (n : Int) else (n : Int) - 2 ^ (8 * w)

/-- Little-endian two's-complement bytes of `i`, `w` bytes wide. -/
def intLE (w : Nat) (i : Int) : List Nat :=
  natLE w (i % (2 ^ (8 * w) : Nat) : Int).toNat

/-! ## CRC-32/ISO-HDLC (`compute_crc` in the source, via the `crc` crate) -/

def crc32Poly : Nat := 0xEDB88320

def crc32Step (c : Nat) : Nat :=
  if c % 2 = 1 then (c / 2) ^^^ crc32Poly else c / 2

def crc32Steps : Nat → Nat → Nat
  | 0, c => c
  | n + 1, c => crc32Steps n (crc32Step c)

def crc32Byte (c b : Nat) : Nat := crc32Steps 8 (c ^^^ b % 256)

/-- `compute_crc`: the CRC-32/ISO-HDLC checksum (reflected, polynomial
`0xEDB88320`, init and xor-out `0xFFFFFFFF`) of the byte list. -/
def compute_crc (data : List Nat) : Nat :=
  (data.foldl crc32Byte 0xFFFFFFFF) ^^^ 0xFFFFFFFF

/-! ## UTF-8 (`str::as_bytes` / `String::from_utf8` at the index boundary) -/

/-- The UTF-8 bytes of one scalar value. -/
def utf8Char (c : Char) : List Nat :=
  let v := c.toNat
  if v < 0x80 then [v]
  else if v < 0x800 then
    [0xC0 + v / 64, 0x80 + v % 64]
  else if v < 0x10000 then
    [0xE0 + v / 4096, 0x80 + v / 64 % 64, 0x80 + v % 64]
  else
    [0xF0 + v / 262144, 0x80 + v / 4096 % 64, 0x80 + v / 64 % 64, 0x80 + v % 64]

/-- UTF-8 encoding of a string given as its scalar list. -/
def utf8Encode (s : List Char) : List Nat :=
  s.foldr (fun c acc => utf8Char c ++ acc) []

/-- Strict UTF-8 decoding (as `String::from_utf8`): rejects stray or missing
continuation bytes, overlong forms, surrogates and values past `0x10FFFF`.
Fuel is the byte count; each step consumes at least one byte. -/
def utf8DecodeGo : Nat → List Nat → Option (List Char)
  | _, [] => some []
  | 0, _ :: _ => none
  | f + 1, b :: bs =>
    if b < 0x80 then
      (utf8DecodeGo f bs).map (fun cs => Char.ofNat b :: cs)
    else if b < 0xC2 then none
    else if b < 0xE0 then
      match bs with
      | b1 :: bs1 =>
        if 0x80 ≤ b1 && b1 < 0xC0 then
          (utf8DecodeGo f bs1).map (fun cs => Char.ofNat ((b - 0xC0) * 64 + (b1 - 0x80)) :: cs)
        else none
      | [] => none
    else if b < 0xF0 then
      match bs with
      | b1 :: b2 :: bs2 =>
        if 0x80 ≤ b1 && b1 < 0xC0 && 0x80 ≤ b2 && b2 < 0xC0 then
          let v := (b - 0xE0) * 4096 + (b1 - 0x80) * 64 + (b2 - 0x80)
          if v < 0x800 || (0xD800 ≤ v && v < 0xE000) then none
          else (utf8DecodeGo f bs2).map (fun cs => Char.ofNat v :: cs)
        else none
      | _ => none
    else if b < 0xF5 then
      match bs with
      | b1 :: b2 :: b3 :: bs3 =>
        if 0x80 ≤ b1 && b1 < 0xC0 && 0x80 ≤ b2 && b2 < 0xC0 && 0x80 ≤ b3 && b3 < 0xC0 then
          let v := (b - 0xF0) * 262144 + (b1 - 0x80) * 4096 + (b2 - 0x80) * 64 + (b3 - 0x80)
          if v < 0x10000 || 0x110000 ≤ v then none
          else (utf8DecodeGo f bs3).map (fun cs => Char.ofNat v :: cs)
        else none
      | _ => none
    else none

def utf8Decode (bs : List Nat) : Option (List Char) :=
  utf8DecodeGo bs.length bs

/-! ## List helpers mirroring `str` operations of the source -/

/-- `s.starts_with(pat)` for strings (byte/char agreement holds for valid UTF-8). -/
def startsWithList : List Char → List Char → Bool
  | _, [] => true
  | [], _ :: _ => false
  | a :: s, b :: pat => a == b && startsWithList s pat

/-- `s.contains(pat)`: `pat` occurs contiguously in `s`. -/
def containsSeq : List Char → List Char → Bool
  | [], pat => startsWithList [] pat
  | a :: rest, pat => startsWithList (a :: rest) pat || containsSeq rest pat

/-- `remaining.chars().zip(edge.chars()).take_while(|(a,b)| a == b).count()`. -/
def commonLen : List Char → List Char → Nat
  | a :: as_, b :: bs_ => if a == b then commonLen as_ bs_ + 1 else 0
  | _, _ => 0

/-! ## Constants of the source -/

def PAGE_SIZE : Nat := 4096
def PAGE_HEADER_SIZE : Nat := 32
/-- `page_size - page_header_size`: the payload capacity of one page. -/
def PAYLOAD_CAPACITY : Nat := PAGE_SIZE - PAGE_HEADER_SIZE
def FREE_LIST_HEADER_SIZE : Nat := 12
def MAX_PAGES : Int := 2 ^ 63 - 1
def MAX_DOCUMENT_SIZE : Nat := 256 * 1024 * 1024
def BATCH_GROW_PAGES : Nat := 16
def PAGE_CACHE_SIZE : Nat := 2048
def MAX_CONSECUTIVE_EMPTY_FREE_LIST : Int := 5

def FLAG_DATA_PAGE : Nat := 0x01
def FLAG_TRIE_PAGE : Nat := 0x02
def FLAG_FREE_LIST_PAGE : Nat := 0x04
def FLAG_INDEX_PAGE : Nat := 0x08

/-- The 8-byte magic constant `MAGIC`. -/
def MAGIC : List Nat := [0x55, 0xAA, 0xFE, 0xED, 0xFA, 0xCE, 0xDA, 0x7A]

/-! ## Errors (`std::io::Error` kinds surfaced by the source) -/

inductive ErrKind where
  | invalidInput
  | notFound
  | invalidData
  | unexpectedEof
  | other
  deriving DecidableEq, Repr

structure Err where
  kind : ErrKind
  msg : String
  deriving DecidableEq, Repr

deriving instance DecidableEq for Except

/-! ## The data model -/

structure PageHeader where
  crc : Nat
  version : Int
  prevPageId : Int
  nextPageId : Int
  flags : Nat
  dataLength : Int
  deriving DecidableEq, Repr

/-- One fixed-size page: its parsed 32-byte header and the bytes of its
payload region (missing trailing bytes read as 0, matching the zero-filled
file growth of `set_len`). -/
structure Page where
  header : PageHeader
  region : List Nat
  deriving DecidableEq, Repr

structure VersionedLink where
  pageId : Int
  version : Int
  deriving DecidableEq, Repr

/-- `Document`: uuid (16 bytes), head page, version, alias paths. -/
structure Document where
  id : List Nat
  firstPageId : Int
  currentVersion : Int
  paths : List (List Char)
  deriving DecidableEq, Repr

/-- A reverse-trie node as (de)serialised by the source. -/
structure ReverseTrieNode where
  edge : List Char
  parentPageId : Int
  selfPageId : Int
  documentId : Option (List Nat)
  children : List (Char × Int)
  deriving DecidableEq, Repr

structure CacheStats where
  hits : Nat
  misses : Nat
  deriving DecidableEq, Repr

/-- A buffered transaction: page writes `(id, payload, version)` and frees. -/
structure Transaction where
  writes : List (Int × List Nat × Int)
  frees : List Int
  deriving DecidableEq, Repr

/-- The in-memory state of `StreamDb` together with the paged file. -/
structure DB where
  pages : List Page
  indexRoot : VersionedLink
  trieRoot : VersionedLink
  freeRoot : VersionedLink
  pageCache : List (Int × List Nat)
  cacheStats : CacheStats
  quickMode : Bool
  transactions : List Transaction
  emptyFreeCount : Int
  deriving DecidableEq, Repr

/-! ## The state-passing result monad: errors keep the post state -/

inductive Res (α : Type) where
  | ok (a : α) (db : DB)
  | err (e : Err) (db : DB)
  deriving DecidableEq, Repr

def M (α : Type) : Type := DB → Res α

instance : Monad M where
  pure a := fun db => .ok a db
  bind x f := fun db =>
    match x db with
    | .ok a db' => f a db'
    | .err e db' => .err e db'

def throwM {α : Type} (k : ErrKind) (s : String) : M α :=
  fun db => .err ⟨k, s⟩ db

def getDb : M DB := fun db => .ok db db

def modifyDb (f : DB → DB) : M Unit := fun db => .ok () (f db)

def liftE {α : Type} (x : Except Err α) : M α :=
  fun db =>
    match x with
    | .ok a => .ok a db
    | .error e => .err e db

/-- The result of a run, if it succeeded. -/
def Res.val {α : Type} : Res α → Option α
  | .ok a _ => some a
  | .err _ _ => none

/-- The error of a run, if it failed. -/
def Res.errOf {α : Type} : Res α → Option Err
  | .ok _ _ => none
  | .err e _ => some e

/-- The post state of a run (errors also carry one). -/
def Res.db {α : Type} : Res α → DB
  | .ok _ db => db
  | .err _ db => db

def Res.isOk {α : Type} : Res α → Bool
  | .ok _ _ => true
  | .err _ _ => false

/-! ## Byte-cursor reads (`Cursor` + `byteorder` in the source) -/

/-- `read_exact` over a byte cursor: the first `n` bytes and the rest. -/
def rdBytes (n : Nat) (bs : List Nat) : Except Err (List Nat × List Nat) :=
  if bs.length < n then .error ⟨.unexpectedEof, "failed to fill whole buffer"⟩
  else .ok (bs.take n, bs.drop n)

/-! ## Ordered maps (`BTreeMap` in the source) -/

/-- Lexicographic order on byte lists: the order of `Uuid` keys in the
document index's `BTreeMap`. -/
def bytesLt : List Nat → List Nat → Bool
  | [], [] => false
  | [], _ :: _ => true
  | _ :: _, [] => false
  | a :: as_, b :: bs_ => if a < b then true else if b < a then false else bytesLt as_ bs_

/-- `BTreeMap::insert` on the document index, keyed by the 16 uuid bytes. -/
def indexInsert : List (List Nat × Document) → List Nat → Document → List (List Nat × Document)
  | [], i, d => [(i, d)]
  | (k, w) :: rest, i, d =>
    if i = k then (i, d) :: rest
    else if bytesLt i k then (i, d) :: (k, w) :: rest
    else (k, w) :: indexInsert rest i d

def indexGet (idx : List (List Nat × Document)) (i : List Nat) : Option Document :=
  (idx.find? (fun e => e.1 == i)).map (fun e => e.2)

/-- `BTreeMap::remove`: the removed document, if any, and the rest. -/
def indexRemove : List (List Nat × Document) → List Nat → Option Document × List (List Nat × Document)
  | [], _ => (none, [])
  | (k, w) :: rest, i =>
    if i = k then (some w, rest)
    else
      let r := indexRemove rest i
      (r.1, (k, w) :: r.2)

/-- `BTreeMap::insert` on a trie node's child map, keyed by `char`. -/
def childInsert : List (Char × Int) → Char → Int → List (Char × Int)
  | [], c, v => [(c, v)]
  | (k, w) :: rest, c, v =>
    if c = k then (c, v) :: rest
    else if c < k then (c, v) :: (k, w) :: rest
    else (k, w) :: childInsert rest c v

def childGet (children : List (Char × Int)) (c : Char) : Option Int :=
  (children.find? (fun e => e.1 == c)).map (fun e => e.2)

/-! ## Index serialisation (`serialize_index` / `deserialize_index`) -/

def serializeDoc (e : List Nat × Document) : List Nat :=
  (e.1 ++ List.replicate 16 0).take 16 ++
  intLE 8 e.2.firstPageId ++ intLE 4 e.2.currentVersion ++
  intLE 4 (e.2.paths.length : Int) ++
  e.2.paths.foldr
    (fun p acc => intLE 4 ((utf8Encode p).length : Int) ++ utf8Encode p ++ acc) []

/-- `serialize_index`: record count, then per document the uuid bytes, head
page, version, path count and length-prefixed UTF-8 paths. -/
def serialize_index (idx : List (List Nat × Document)) : List Nat :=
  intLE 4 (idx.length : Int) ++ idx.foldr (fun e acc => serializeDoc e ++ acc) []

def dsPaths : Nat → List Nat → Except Err (List (List Char) × List Nat)
  | 0, bs => .ok ([], bs)
  | n + 1, bs => do
    let (lenB, bs1) ← rdBytes 4 bs
    let len := leInt 4 lenB
    if len < 0 then .error ⟨.other, "capacity overflow"⟩
    else
      let (pb, bs2) ← rdBytes len.toNat bs1
      match utf8Decode pb with
      | some p => do
        let (ps, bs3) ← dsPaths n bs2
        .ok (p :: ps, bs3)
      | none => .error ⟨.invalidData, "invalid utf-8 in stored path"⟩

def dsDocs : Nat → List Nat → List (List Nat × Document) →
    Except Err (List (List Nat × Document))
  | 0, _, acc => .ok acc
  | n + 1, bs, acc => do
    let (idB, bs1) ← rdBytes 16 bs
    let (fpB, bs2) ← rdBytes 8 bs1
    let (cvB, bs3) ← rdBytes 4 bs2
    let (pcB, bs4) ← rdBytes 4 bs3
    let (paths, bs5) ← dsPaths (leInt 4 pcB).toNat bs4
    dsDocs n bs5 (indexInsert acc idB ⟨idB, leInt 8 fpB, leInt 4 cvB, paths⟩)

/-- `deserialize_index`. -/
def deserialize_index (data : List Nat) : Except Err (List (List Nat × Document)) := do
  let (cB, bs1) ← rdBytes 4 data
  dsDocs (leInt 4 cB).toNat bs1 []

/-! ## Trie-node serialisation (`serialize_trie_node` / `deserialize_trie_node`) -/

def serialize_trie_node (node : ReverseTrieNode) : List Nat :=
  let edgeB := utf8Encode node.edge
  intLE 4 (edgeB.length : Int) ++ edgeB ++
  intLE 8 node.parentPageId ++ intLE 8 node.selfPageId ++
  (match node.documentId with
   | some u => intLE 4 1 ++ (u ++ List.replicate 16 0).take 16
   | none => intLE 4 0) ++
  intLE 4 (node.children.length : Int) ++
  node.children.foldr (fun c acc => [c.1.toNat % 256] ++ intLE 8 c.2 ++ acc) []

def dsChildren : Nat → List Nat → List (Char × Int) → Except Err (List (Char × Int))
  | 0, _, acc => .ok acc
  | n + 1, bs, acc => do
    let (cB, bs1) ← rdBytes 1 bs
    let (idB, bs2) ← rdBytes 8 bs1
    dsChildren n bs2 (childInsert acc (Char.ofNat (cB.headD 0)) (leInt 8 idB))

/-- `deserialize_trie_node`. -/
def deserialize_trie_node (data : List Nat) : Except Err ReverseTrieNode := do
  let (elB, bs1) ← rdBytes 4 data
  let el := leInt 4 elB
  if el < 0 then .error ⟨.other, "capacity overflow"⟩
  else
    let (eB, bs2) ← rdBytes el.toNat bs1
    match utf8Decode eB with
    | none => .error ⟨.invalidData, "invalid utf-8 in stored edge"⟩
    | some edge => do
      let (ppB, bs3) ← rdBytes 8 bs2
      let (spB, bs4) ← rdBytes 8 bs3
      let (hdB, bs5) ← rdBytes 4 bs4
      if leInt 4 hdB ≠ 0 then do
        let (uB, bs6) ← rdBytes 16 bs5
        let (ccB, bs7) ← rdBytes 4 bs6
        let children ← dsChildren (leInt 4 ccB).toNat bs7 []
        .ok ⟨edge, leInt 8 ppB, leInt 8 spB, some uB, children⟩
      else do
        let (ccB, bs7) ← rdBytes 4 bs5
        let children ← dsChildren (leInt 4 ccB).toNat bs7 []
        .ok ⟨edge, leInt 8 ppB, leInt 8 spB, none, children⟩

/-! ## The LRU page cache (`lru::LruCache`, most-recent first) -/

def cacheLookup (c : List (Int × List Nat)) (k : Int) : Option (List Nat) :=
  (c.find? (fun e => e.1 == k)).map (fun e => e.2)

def cacheRemoveKey (c : List (Int × List Nat)) (k : Int) : List (Int × List Nat) :=
  c.filter (fun e => e.1 != k)

/-- `LruCache::get`: a hit moves the entry to the most-recent position. -/
def cacheTouch (c : List (Int × List Nat)) (k : Int) : List (Int × List Nat) :=
  match cacheLookup c k with
  | some v => (k, v) :: cacheRemoveKey c k
  | none => c

/-- `LruCache::put`: insert most-recent, evicting past the capacity. -/
def cachePut (c : List (Int × List Nat)) (k : Int) (v : List Nat) : List (Int × List Nat) :=
  ((k, v) :: cacheRemoveKey c k).take PAGE_CACHE_SIZE

/-! ## Region bytes of a page -/

/-- The first `n` payload bytes of a region; bytes past the stored list read 0
(the file is zero-filled on growth). -/
def readRegion (region : List Nat) (n : Nat) : List Nat :=
  region.take n ++ List.replicate (n - region.length) 0

def listSetAt {α : Type} : List α → Nat → (α → α) → List α
  | [], _, _ => []
  | x :: xs, 0, f => f x :: xs
  | x :: xs, n + 1, f => x :: listSetAt xs n f

/-- Write `bs` at byte offset `off` of the payload region of page `id`.  The
source seeks and writes through mmap or the file handle; writes addressed
outside the current file fail here (all uses below stay inside). -/
def writeRegionAt (db : DB) (id : Int) (off : Nat) (bs : List Nat) : Except Err DB :=
  if id < 0 then .error ⟨.unexpectedEof, "write past end of file"⟩
  else if id.toNat < db.pages.length then
    .ok { db with
      pages := listSetAt db.pages id.toNat
        (fun p => { p with region := readRegion p.region off ++ bs ++ p.region.drop (off + bs.length) }) }
  else .error ⟨.unexpectedEof, "write past end of file"⟩

/-! ## Pager (`read_page_header`, `write_page_header`, `read_raw_page`, `write_raw_page`) -/

def read_page_header_pure (db : DB) (id : Int) : Except Err PageHeader :=
  if id < 0 || MAX_PAGES ≤ id then .error ⟨.invalidInput, "Invalid page ID"⟩
  else
    match db.pages[id.toNat]? with
    | some pg => .ok pg.header
    | none => .error ⟨.unexpectedEof, "read past end of file"⟩

/-- `read_page_header`. -/
def read_page_header (id : Int) : M PageHeader := fun db =>
  match read_page_header_pure db id with
  | .ok h => .ok h db
  | .error e => .err e db

def write_page_header_pure (db : DB) (id : Int) (hdr : PageHeader) : Except Err DB :=
  if id < 0 then .error ⟨.unexpectedEof, "write past end of file"⟩
  else if id.toNat < db.pages.length then
    .ok { db with pages := listSetAt db.pages id.toNat (fun p => { p with header := hdr }) }
  else .error ⟨.unexpectedEof, "write past end of file"⟩

/-- `write_page_header`. -/
def write_page_header (id : Int) (hdr : PageHeader) : M Unit := fun db =>
  match write_page_header_pure db id hdr with
  | .ok db1 => .ok () db1
  | .error e => .err e db

/-- `read_raw_page`: bound check, cache probe (hit: bump `hits`, return the
cached clone), else bump `misses`, read the header, read `data_length` stored
bytes, verify the CRC unless quick-mode is on, and insert into the cache. -/
def read_raw_page (id : Int) : M (List Nat) := fun db =>
  if id < 0 || MAX_PAGES ≤ id then .err ⟨.invalidInput, "Invalid page ID"⟩ db
  else
    match cacheLookup db.pageCache id with
    | some v =>
      .ok v { db with
        pageCache := cacheTouch db.pageCache id,
        cacheStats := { db.cacheStats with hits := db.cacheStats.hits + 1 } }
    | none =>
      let db1 := { db with cacheStats := { db.cacheStats with misses := db.cacheStats.misses + 1 } }
      match db1.pages[id.toNat]? with
      | none => .err ⟨.unexpectedEof, "read past end of file"⟩ db1
      | some pg =>
        if pg.header.dataLength < 0 then .err ⟨.other, "capacity overflow"⟩ db1
        else
          let buf := readRegion pg.region pg.header.dataLength.toNat
          if !db1.quickMode && compute_crc buf != pg.header.crc then
            .err ⟨.invalidData, "CRC mismatch"⟩ db1
          else
            .ok buf { db1 with pageCache := cachePut db1.pageCache id buf }

/-- `write_raw_page`: bound and size checks, then a fresh header — CRC over
the stored payload, `prev = next = -1` and, unconditionally, the data flag —
followed by the header write, the payload write and a cache invalidation. -/
def write_raw_page (id : Int) (data : List Nat) (version : Int) : M Unit := fun db =>
  if id < 0 || MAX_PAGES ≤ id then .err ⟨.invalidInput, "Invalid page ID"⟩ db
  else if PAYLOAD_CAPACITY < data.length then .err ⟨.invalidInput, "Data too large for page"⟩ db
  else
    let hdr : PageHeader :=
      { crc := compute_crc data, version := version, prevPageId := -1, nextPageId := -1,
        flags := FLAG_DATA_PAGE, dataLength := (data.length : Int) }
    match write_page_header_pure db id hdr with
    | .error e => .err e db
    | .ok db1 =>
      match writeRegionAt db1 id 0 data with
      | .error e => .err e db1
      | .ok db2 => .ok () { db2 with pageCache := cacheRemoveKey db2.pageCache id }

/-! ## Allocator and free list -/

def FREE_LIST_ENTRIES_PER_PAGE : Nat :=
  (PAGE_SIZE - PAGE_HEADER_SIZE - FREE_LIST_HEADER_SIZE) / 8

/-- A page appended by `set_len` growth: all bytes zero. -/
def zeroPage : Page :=
  { header := { crc := 0, version := 0, prevPageId := 0, nextPageId := 0, flags := 0, dataLength := 0 },
    region := [] }

/-- `update_free_list_used`: rewrites the 12-byte free-list header of `page_id`
with `next = -1` (hard-coded in the source) and the given used count. -/
def update_free_list_used (id : Int) (used : Int) : M Unit := fun db =>
  match writeRegionAt db id 0 (intLE 8 (-1) ++ intLE 4 used) with
  | .ok db1 => .ok () db1
  | .error e => .err e db

/-- `pop_free_page`: reads `next`, `used` and the first entry from the head
free-list page; an empty head advances the root (also on the error path). -/
def pop_free_page : M Int := fun db =>
  if db.freeRoot.pageId == -1 then .err ⟨.notFound, "No free pages"⟩ db
  else if db.freeRoot.pageId < 0 then .err ⟨.unexpectedEof, "read past end of file"⟩ db
  else
    match db.pages[db.freeRoot.pageId.toNat]? with
    | none => .err ⟨.unexpectedEof, "read past end of file"⟩ db
    | some pg =>
      let bs := readRegion pg.region (FREE_LIST_HEADER_SIZE + 8)
      let nextFree := leInt 8 bs
      let used := leInt 4 (bs.drop 8)
      if used ≤ 0 then
        .err ⟨.notFound, "No free pages in list"⟩
          { db with freeRoot := { db.freeRoot with pageId := nextFree } }
      else
        let pid := leInt 8 (bs.drop 12)
        match update_free_list_used db.freeRoot.pageId (used - 1) db with
        | .err e db1 => .err e db1
        | .ok _ db1 =>
          if used == 1 then
            .ok pid { db1 with freeRoot := { db1.freeRoot with pageId := nextFree } }
          else .ok pid db1

/-- `grow_file`: append `n` zero pages, returning the first new page id. -/
def grow_file (n : Nat) : M Int := fun db =>
  if MAX_PAGES < ((db.pages.length : Int) + (n : Int)) then .err ⟨.other, "Max pages exceeded"⟩ db
  else .ok (db.pages.length : Int) { db with pages := db.pages ++ List.replicate n zeroPage }

/-- `allocate_page`: try the free list (success resets the emptiness counter);
on failure bump the counter, batch-grow by 16 pages once it reaches 5, else
grow by a single page. -/
def allocate_page : M Int := fun db =>
  match pop_free_page db with
  | .ok pid db1 => .ok pid { db1 with emptyFreeCount := 0 }
  | .err _ db1 =>
    let c := db1.emptyFreeCount + 1
    let db2 := { db1 with emptyFreeCount := c }
    if MAX_CONSECUTIVE_EMPTY_FREE_LIST ≤ c then
      match grow_file BATCH_GROW_PAGES db2 with
      | .ok pid db3 => .ok pid { db3 with emptyFreeCount := 0 }
      | .err e db3 => .err e db3
    else
      let pid : Int := (db2.pages.length : Int)
      if MAX_PAGES ≤ pid then .err ⟨.other, "Max pages exceeded"⟩ db2
      else .ok pid { db2 with pages := db2.pages ++ [zeroPage] }

/-- Modelled from the spec: `free_page` is called by `delete_by_path` and
`commit_transaction` but is absent from the source (only its call sites
exist).  Spec §4.2: "Free pushes `id` onto the free list head page; if that
page is full, a new free-list page is allocated for the chain."  When no head
free-list page exists, the freed page itself becomes the head with zero
entries; likewise a full head makes the freed page the new head, linking to
the old one.  Entries are 8-byte little-endian page ids following the 12-byte
free-list page header, written in the style of `update_free_list_used`. -/
def free_page (id : Int) : M Unit := fun db =>
  if db.freeRoot.pageId == -1 then
    match writeRegionAt db id 0 (intLE 8 (-1) ++ intLE 4 0) with
    | .error e => .err e db
    | .ok db1 => .ok () { db1 with freeRoot := { db1.freeRoot with pageId := id } }
  else if db.freeRoot.pageId < 0 then .err ⟨.unexpectedEof, "read past end of file"⟩ db
  else
    match db.pages[db.freeRoot.pageId.toNat]? with
    | none => .err ⟨.unexpectedEof, "read past end of file"⟩ db
    | some pg =>
      let bs := readRegion pg.region FREE_LIST_HEADER_SIZE
      let used := leInt 4 (bs.drop 8)
      if used < (FREE_LIST_ENTRIES_PER_PAGE : Int) then
        match writeRegionAt db db.freeRoot.pageId 0 (bs.take 8 ++ intLE 4 (used + 1)) with
        | .error e => .err e db
        | .ok db1 =>
          match writeRegionAt db1 db.freeRoot.pageId
              (FREE_LIST_HEADER_SIZE + 8 * used.toNat) (intLE 8 id) with
          | .error e => .err e db1
          | .ok db2 => .ok () db2
      else
        match writeRegionAt db id 0 (intLE 8 db.freeRoot.pageId ++ intLE 4 0) with
        | .error e => .err e db
        | .ok db1 => .ok () { db1 with freeRoot := { db1.freeRoot with pageId := id } }

/-! ## Path validation -/

/-- `validate_path`: rejected if empty, or containing `..` or `::`, or
beginning with `/` or `\`. -/
def validate_path (p : List Char) : Except Err Unit :=
  if p.isEmpty || containsSeq p ['.', '.'] || containsSeq p [':', ':'] ||
      startsWithList p ['/'] || startsWithList p ['\\'] then
    .error ⟨.invalidInput, "Invalid path"⟩
  else .ok ()

/-! ## Document index access -/

/-- `read_index`: empty map when the index root is absent, else read and
deserialise the single index page. -/
def read_index : M (List (List Nat × Document)) := fun db =>
  if db.indexRoot.pageId == -1 then .ok [] db
  else
    match read_raw_page db.indexRoot.pageId db with
    | .ok data db1 => liftE (deserialize_index data) db1
    | .err e db1 => .err e db1

/-! ## Reverse path trie -/

/-- `trie_insert`: creates an empty-edged root when the trie is absent, then
runs the source's insert loop.  The loop body handles only the case where the
whole reversed key equals the current node's edge (setting that node's
document id); the split/descend logic is omitted in the source ("Implement
split/merge logic for trie (omitted for brevity)") and the body returns
`Ok(())`, so the `while` never runs a second iteration. -/
def trie_insert (p : List Char) (uid : List Nat) : M Unit := do
  let reversed := p.reverse
  let db0 ← getDb
  let currentPageId ←
    if db0.trieRoot.pageId == -1 then do
      let pid ← allocate_page
      modifyDb (fun db => { db with trieRoot := { pageId := pid, version := 0 } })
      write_raw_page pid
        (serialize_trie_node
          { edge := [], parentPageId := -1, selfPageId := pid, documentId := none, children := [] }) 0
      pure pid
    else pure db0.trieRoot.pageId
  match reversed with
  | [] => pure ()
  | _ :: _ => do
    let bytes ← read_raw_page currentPageId
    let node ← liftE (deserialize_trie_node bytes)
    let cp := commonLen reversed node.edge
    if cp == node.edge.length && cp == reversed.length then
      write_raw_page currentPageId (serialize_trie_node { node with documentId := some uid }) 0
    else
      pure ()

/-- `trie_delete`: fails when the trie is absent; the deletion with pruning
is omitted in the source ("omitted for brevity") and the call succeeds
without modifying anything. -/
def trie_delete (_p : List Char) : M Unit := do
  let db ← getDb
  if db.trieRoot.pageId == -1 then throwM .notFound "Path not found"
  else pure ()

/-- The traversal loop shared by `get_document_id_by_path` (fuel bounds the
pages followed). -/
def docIdWalk : Nat → Int → List Char → M (List Nat)
  | 0, _, _ => throwM .other "out of fuel"
  | f + 1, pid, remaining =>
    match remaining with
    | [] => do
      let bytes ← read_raw_page pid
      let node ← liftE (deserialize_trie_node bytes)
      match node.documentId with
      | some u => pure u
      | none => throwM .notFound "Path not found"
    | _ :: _ => do
      let bytes ← read_raw_page pid
      let node ← liftE (deserialize_trie_node bytes)
      if startsWithList remaining node.edge then
        match remaining.drop node.edge.length with
        | [] =>
          match node.documentId with
          | some u => pure u
          | none => throwM .notFound "Path not found"
        | c :: rest =>
          match childGet node.children c with
          | some cid => docIdWalk f cid (c :: rest)
          | none => throwM .notFound "Path not found"
      else throwM .notFound "Path not found"

/-- `get_document_id_by_path`. -/
def get_document_id_by_path (p : List Char) (fuel : Nat) : M (List Nat) := do
  liftE (validate_path p)
  let db ← getDb
  if db.trieRoot.pageId == -1 then throwM .notFound "Path not found"
  else docIdWalk fuel db.trieRoot.pageId p.reverse

mutual

/-- `trie_collect_paths`: accumulate `node.edge ++ acc`, emit its reversal at
terminal nodes, then recurse into the children in map order. -/
def trie_collect_paths : Nat → ReverseTrieNode → List Char → M (List (List Char))
  | 0, _, _ => throwM .other "out of fuel"
  | f + 1, node, acc =>
    let newAcc := if acc.isEmpty then node.edge else node.edge ++ acc
    let own : List (List Char) :=
      match node.documentId with
      | some _ => [newAcc.reverse]
      | none => []
    do
      let rs ← collectChildren f node.children newAcc
      pure (own ++ rs)

def collectChildren : Nat → List (Char × Int) → List Char → M (List (List Char))
  | 0, _, _ => throwM .other "out of fuel"
  | _ + 1, [], _ => pure []
  | f + 1, (_, cid) :: rest, acc => do
    let bytes ← read_raw_page cid
    let child ← liftE (deserialize_trie_node bytes)
    let rs ← trie_collect_paths f child acc
    let rs2 ← collectChildren f rest acc
    pure (rs ++ rs2)

end

/-- The walk loop of `search_paths`; both return points collect under the
reached node and keep only results that start with the original query. -/
def searchWalk : Nat → List Char → Int → List Char → M (List (List Char))
  | 0, _, _, _ => throwM .other "out of fuel"
  | f + 1, q, pid, remaining =>
    match remaining with
    | [] => do
      let bytes ← read_raw_page pid
      let node ← liftE (deserialize_trie_node bytes)
      let results ← trie_collect_paths (f + 1) node []
      pure (results.filter (fun r => startsWithList r q))
    | _ :: _ => do
      let bytes ← read_raw_page pid
      let node ← liftE (deserialize_trie_node bytes)
      if startsWithList remaining node.edge then
        match remaining.drop node.edge.length with
        | [] => do
          let results ← trie_collect_paths (f + 1) node []
          pure (results.filter (fun r => startsWithList r q))
        | c :: rest =>
          match childGet node.children c with
          | some cid => searchWalk f q cid (c :: rest)
          | none => pure []
      else pure []

/-- `search_paths`: validate the query, walk its reversal from the trie root,
collect the subtree and filter by the original query. -/
def search_paths (q : List Char) (fuel : Nat) : M (List (List Char)) := do
  liftE (validate_path q)
  let db ← getDb
  if db.trieRoot.pageId == -1 then pure []
  else searchWalk fuel q db.trieRoot.pageId q.reverse

/-! ## Document operations -/

/-- The chunk loop of `write_document`: per chunk, allocate a page, build a
header whose `next` — when more data remains — is a page id from a second
`allocate_page` call (a page the loop never writes; the following chunk
allocates afresh), write the chunk through `write_raw_page`, then overwrite
the header.  Returns the head page id. -/
def writeChunks : Nat → List Nat → Int → Int → M Int
  | 0, _, _, _ => throwM .other "out of fuel"
  | _ + 1, [], currentPageId, _ => pure currentPageId
  | f + 1, b :: dataRem, currentPageId, prevPageId => do
    let chunk := (b :: dataRem).take PAYLOAD_CAPACITY
    let rest := (b :: dataRem).drop PAYLOAD_CAPACITY
    let newPageId ← allocate_page
    let nextP ← if rest.isEmpty then pure (-1 : Int) else allocate_page
    let hdr : PageHeader :=
      { crc := compute_crc chunk, version := 0, prevPageId := prevPageId, nextPageId := nextP,
        flags := FLAG_DATA_PAGE, dataLength := (chunk.length : Int) }
    write_raw_page newPageId chunk 0
    write_page_header newPageId hdr
    writeChunks f rest (if currentPageId == -1 then newPageId else currentPageId) newPageId

/-- `write_document` (the fresh v4 uuid is passed explicitly): validate,
write the chunk chain, insert the document into the index, rewrite the index
at the current index root page, and run `trie_insert`. -/
def write_document (uid : List Nat) (p : List Char) (data : List Nat) : M (List Nat) := do
  liftE (validate_path p)
  let headPage ← writeChunks (data.length + 1) data (-1) (-1)
  let idx ← read_index
  let doc : Document := { id := uid, firstPageId := headPage, currentVersion := 0, paths := [p] }
  let idx1 := indexInsert idx uid doc
  let db ← getDb
  write_raw_page db.indexRoot.pageId (serialize_index idx1) db.indexRoot.version
  trie_insert p uid
  pure uid

/-- The chain walk of `get`: concatenate payloads following `next` until -1. -/
def chainWalk : Nat → Int → List Nat → M (List Nat)
  | 0, _, _ => throwM .other "out of fuel"
  | f + 1, current, acc =>
    if current == -1 then pure acc
    else do
      let pageData ← read_raw_page current
      let hdr ← read_page_header current
      chainWalk f hdr.nextPageId (acc ++ pageData)

/-- `get`: resolve the path through the trie, look the document up in the
index, then reassemble the chain from its head page. -/
def get (p : List Char) (fuel : Nat) : M (List Nat) := do
  liftE (validate_path p)
  let uid ← get_document_id_by_path p fuel
  let idx ← read_index
  match indexGet idx uid with
  | none => throwM .notFound "Document not found"
  | some doc => chainWalk fuel doc.firstPageId []

/-- The chain-freeing walk of `delete_by_path`. -/
def freeChainWalk : Nat → Int → M Unit
  | 0, _ => throwM .other "out of fuel"
  | f + 1, current =>
    if current == -1 then pure ()
    else do
      let hdr ← read_page_header current
      free_page current
      freeChainWalk f hdr.nextPageId

def deletePathsLoop : List (List Char) → M Unit
  | [] => pure ()
  | p :: rest => do
    trie_delete p
    deletePathsLoop rest

/-- `delete_by_path`: resolve the path, remove the document from the index
unconditionally, free its whole chain, run `trie_delete` on every alias, and
rewrite the index. -/
def delete_by_path (p : List Char) (fuel : Nat) : M Unit := do
  liftE (validate_path p)
  let uid ← get_document_id_by_path p fuel
  let idx ← read_index
  match indexRemove idx uid with
  | (none, _) => throwM .notFound "Document not found"
  | (some doc, idx1) => do
    freeChainWalk fuel doc.firstPageId
    deletePathsLoop doc.paths
    let db ← getDb
    write_raw_page db.indexRoot.pageId (serialize_index idx1) db.indexRoot.version

/-- `bind_addon_path`: resolves the *given* path (so it only succeeds when
that path already names a document), appends it to the document's alias list,
rewrites the index and re-inserts the path into the trie. -/
def bind_addon_path (p : List Char) (_addon : Bool) (fuel : Nat) : M Unit := do
  liftE (validate_path p)
  let uid ← get_document_id_by_path p fuel
  let idx ← read_index
  match indexGet idx uid with
  | none => throwM .notFound "Document not found"
  | some doc => do
    let doc1 := { doc with paths := doc.paths ++ [p] }
    let idx1 := indexInsert idx uid doc1
    let db ← getDb
    write_raw_page db.indexRoot.pageId (serialize_index idx1) db.indexRoot.version
    trie_insert p uid

/-! ## Transactions -/

/-- The `as usize` cast of an `i64`. -/
def usizeOfI64 (i : Int) : Nat := (i % (2 ^ 64 : Int)).toNat

/-- `begin_transaction`: the returned id is the current length of the
live-transaction list; a fresh empty transaction is pushed. -/
def begin_transaction : M Int := fun db =>
  .ok (db.transactions.length : Int)
    { db with transactions := db.transactions ++ [{ writes := [], frees := [] }] }

def txApplyWrites : List (Int × List Nat × Int) → M Unit
  | [] => pure ()
  | (pid, data, ver) :: rest => do
    write_raw_page pid data ver
    txApplyWrites rest

def txApplyFrees : List Int → M Unit
  | [] => pure ()
  | pid :: rest => do
    free_page pid
    txApplyFrees rest

/-- `commit_transaction`: ids at or past the list length are invalid; the
transaction at position `tx_id` is removed and its buffered writes and frees
are applied in order. -/
def commit_transaction (txId : Int) : M Unit := fun db =>
  if db.transactions.length ≤ usizeOfI64 txId then
    .err ⟨.invalidInput, "Invalid transaction ID"⟩ db
  else
    match db.transactions[usizeOfI64 txId]? with
    | none => .err ⟨.invalidInput, "Invalid transaction ID"⟩ db
    | some tx =>
      (do txApplyWrites tx.writes; txApplyFrees tx.frees)
        { db with transactions := db.transactions.eraseIdx (usizeOfI64 txId) }

/-- `rollback_transaction`: ids at or past the list length are invalid; the
transaction at position `tx_id` is removed and nothing else changes. -/
def rollback_transaction (txId : Int) : M Unit := fun db =>
  if db.transactions.length ≤ usizeOfI64 txId then
    .err ⟨.invalidInput, "Invalid transaction ID"⟩ db
  else .ok () { db with transactions := db.transactions.eraseIdx (usizeOfI64 txId) }

/-! ## Opening the superblock -/

/-- The superblock phase of the source's open path (`initialize`, lines
184–221): seek to 0 and read up to 32 bytes into a zeroed buffer.  A
zero-length read makes a fresh database: magic plus three `-1` roots with
version 0 (44 bytes) are written and open proceeds with the in-memory roots
still at their initial `-1`.  Otherwise the magic is compared — a mismatch is
`InvalidData` — and the three versioned roots are read from the 32-byte
buffer through a cursor; the reads past position 32 fail with an end-of-file
error because magic plus three 12-byte roots occupy 44 bytes.  The `recover`
pass that follows in the source is outside this definition.  Returns the
three roots (index, trie, free list) and the resulting file bytes. -/
def sbBuf (fileBytes : List Nat) : List Nat :=
  fileBytes.take 32 ++ List.replicate (32 - fileBytes.length) 0

def open_superblock (fileBytes : List Nat) :
    Except Err (VersionedLink × VersionedLink × VersionedLink × List Nat) :=
  if fileBytes.isEmpty then
    let sb := MAGIC ++ intLE 8 (-1) ++ intLE 4 0 ++ intLE 8 (-1) ++ intLE 4 0 ++
      intLE 8 (-1) ++ intLE 4 0
    .ok (⟨-1, 0⟩, ⟨-1, 0⟩, ⟨-1, 0⟩, sb)
  else do
    let (mB, c1) ← rdBytes 8 (sbBuf fileBytes)
    if leNat 8 mB ≠ leNat 8 MAGIC then .error ⟨.invalidData, "Invalid DB magic"⟩
    else do
      let (ipB, c2) ← rdBytes 8 c1
      let (ivB, c3) ← rdBytes 4 c2
      let (tpB, c4) ← rdBytes 8 c3
      let (tvB, c5) ← rdBytes 4 c4
      let (fpB, c6) ← rdBytes 8 c5
      let (fvB, _) ← rdBytes 4 c6
      .ok (⟨leInt 8 ipB, leInt 4 ivB⟩, ⟨leInt 8 tpB, leInt 4 tvB⟩,
        ⟨leInt 8 fpB, leInt 4 fvB⟩, fileBytes)

/-! ## Concrete states for the scenario theorems -/

/-- The serialised empty index: a zero record count. -/
def emptyIndexBytes : List Nat := serialize_index []

/-- A page holding the serialised empty index. -/
def indexPage0 : Page :=
  { header :=
      { crc := compute_crc emptyIndexBytes, version := 0, prevPageId := -1, nextPageId := -1,
        flags := FLAG_INDEX_PAGE, dataLength := (emptyIndexBytes.length : Int) },
    region := emptyIndexBytes }

/-- A store with an empty document index rooted at page 0, no trie, no free
list, no open transaction: the state reached by writing an empty index page
at the root (on a completely fresh store `write_document` instead fails,
because the index root is `-1` and `write_raw_page` rejects the id). -/
def dbEmptyIndex : DB :=
  { pages := [indexPage0], indexRoot := ⟨0, 0⟩, trieRoot := ⟨-1, 0⟩, freeRoot := ⟨-1, 0⟩,
    pageCache := [], cacheStats := ⟨0, 0⟩, quickMode := false, transactions := [],
    emptyFreeCount := 0 }

def uuidA : List Nat := [1, 2, 3, 4, 5, 6, 7, 8, 9, 10, 11, 12, 13, 14, 15, 16]

/-- A page exactly as `write_raw_page` lays it out: CRC over the stored
bytes, `prev = next = -1`, the data flag, payload length, the given version. -/
def writtenPage (bytes : List Nat) (v : Int) : Page :=
  { header :=
      { crc := compute_crc bytes, version := v, prevPageId := -1, nextPageId := -1,
        flags := FLAG_DATA_PAGE, dataLength := (bytes.length : Int) },
    region := bytes }

/-- The document recorded by `write_document uuidA "a" [1]`: head page 1. -/
def docA : Document := { id := uuidA, firstPageId := 1, currentVersion := 0, paths := [['a']] }

def idxA : List (List Nat × Document) := indexInsert [] uuidA docA

/-- The empty-edged trie root that `trie_insert` creates at page 2. -/
def trieRootNodeA : ReverseTrieNode :=
  { edge := [], parentPageId := -1, selfPageId := 2, documentId := none, children := [] }

/-- The store after `write_document uuidA "a" [1]` over `dbEmptyIndex`: the
rewritten index at page 0, the data page at page 1, the fresh trie root at
page 2 (still cached from the insert's read-back), two cache misses, two
single-page growths of the file.  The claim theorem below proves the write
lands exactly here. -/
def dbAfterWriteA : DB :=
  { pages := [writtenPage (serialize_index idxA) 0, writtenPage [1] 0,
      writtenPage (serialize_trie_node trieRootNodeA) 0],
    indexRoot := ⟨0, 0⟩, trieRoot := ⟨2, 0⟩, freeRoot := ⟨-1, 0⟩,
    pageCache := [(2, serialize_trie_node trieRootNodeA)],
    cacheStats := ⟨0, 2⟩, quickMode := false, transactions := [], emptyFreeCount := 2 }

/-- `dbEmptyIndex` after `begin_transaction`: one open empty transaction. -/
def dbTxBegan : DB := { dbEmptyIndex with transactions := [⟨[], []⟩] }

/-- The document recorded by `write_document uuidA "x" [1]`. -/
def docX : Document := { id := uuidA, firstPageId := 1, currentVersion := 0, paths := [['x']] }

def idxX : List (List Nat × Document) := indexInsert [] uuidA docX

/-- The store after `write_document uuidA "x" [1]` over `dbTxBegan`: the
write proceeds exactly as outside a transaction — pages written immediately,
nothing buffered into the open transaction. -/
def dbTxWrote : DB :=
  { pages := [writtenPage (serialize_index idxX) 0, writtenPage [1] 0,
      writtenPage (serialize_trie_node trieRootNodeA) 0],
    indexRoot := ⟨0, 0⟩, trieRoot := ⟨2, 0⟩, freeRoot := ⟨-1, 0⟩,
    pageCache := [(2, serialize_trie_node trieRootNodeA)],
    cacheStats := ⟨0, 2⟩, quickMode := false, transactions := [⟨[], []⟩],
    emptyFreeCount := 2 }

/-- `dbTxWrote` after `rollback_transaction 0`: only the transaction record
goes away; pages, roots and free list are untouched. -/
def dbTxDone : DB := { dbTxWrote with transactions := [] }

/-- A second uuid for the alias scenario. -/
def uuidB : List Nat := List.replicate 16 9

/-- A page for a given trie node. -/
def triePageOf (n : ReverseTrieNode) : Page :=
  { header :=
      { crc := compute_crc (serialize_trie_node n), version := 0, prevPageId := -1,
        nextPageId := -1, flags := FLAG_TRIE_PAGE,
        dataLength := ((serialize_trie_node n).length : Int) },
    region := serialize_trie_node n }

def trieRootNodeB : ReverseTrieNode :=
  { edge := [], parentPageId := -1, selfPageId := 1, documentId := none,
    children := [('p', 2), ('q', 3)] }

def trieNodeP : ReverseTrieNode :=
  { edge := ['p'], parentPageId := 1, selfPageId := 2, documentId := some uuidB, children := [] }

def trieNodeQ : ReverseTrieNode :=
  { edge := ['q'], parentPageId := 1, selfPageId := 3, documentId := some uuidB, children := [] }

/-- The two-alias document: head page 4, bound to both `"p"` and `"q"`. -/
def docB : Document :=
  { id := uuidB, firstPageId := 4, currentVersion := 0, paths := [['p'], ['q']] }

def idxB : List (List Nat × Document) := indexInsert [] uuidB docB

def indexPageB : Page :=
  { header :=
      { crc := compute_crc (serialize_index idxB), version := 0, prevPageId := -1,
        nextPageId := -1, flags := FLAG_INDEX_PAGE,
        dataLength := ((serialize_index idxB).length : Int) },
    region := serialize_index idxB }

def dataPageB : Page :=
  { header :=
      { crc := compute_crc [7], version := 0, prevPageId := -1, nextPageId := -1,
        flags := FLAG_DATA_PAGE, dataLength := 1 },
    region := [7] }

/-- A store holding one document with the two alias paths `"p"` and `"q"`:
page 0 the index, page 1 the trie root, pages 2 and 3 the two terminal trie
nodes, page 4 the single data page. -/
def dbTwoAliases : DB :=
  { pages := [indexPageB, triePageOf trieRootNodeB, triePageOf trieNodeP, triePageOf trieNodeQ,
      dataPageB],
    indexRoot := ⟨0, 0⟩, trieRoot := ⟨1, 0⟩, freeRoot := ⟨-1, 0⟩,
    pageCache := [], cacheStats := ⟨0, 0⟩, quickMode := false, transactions := [],
    emptyFreeCount := 0 }

/-- Page 0 after `delete_by_path "p"` rewrites the now-empty index: the four
zero bytes of the empty record list, the tail of the old serialisation
remaining beyond the declared length. -/
def delIndexPage : Page :=
  { header :=
      { crc := compute_crc (serialize_index []), version := 0, prevPageId := -1,
        nextPageId := -1, flags := FLAG_DATA_PAGE,
        dataLength := ((serialize_index []).length : Int) },
    region := serialize_index [] ++ (serialize_index idxB).drop 4 }

/-- Page 4 after the spec-modelled `free_page` turns it into the head
free-list page: `next = -1`, zero used entries, header untouched. -/
def freedDataPage : Page :=
  { dataPageB with region := intLE 8 (-1) ++ intLE 4 0 ++ dataPageB.region.drop 12 }

/-- The store after `delete_by_path "p"` over `dbTwoAliases`: the document is
gone from the index, its data page heads the free list, and the trie pages
are untouched (`trie_delete` is a stub), so both aliases still resolve to the
now-missing document.  The claim theorem below proves the delete lands
exactly here. -/
def dbAfterDeleteP : DB :=
  { pages := [delIndexPage, triePageOf trieRootNodeB, triePageOf trieNodeP,
      triePageOf trieNodeQ, freedDataPage],
    indexRoot := ⟨0, 0⟩, trieRoot := ⟨1, 0⟩, freeRoot := ⟨4, 0⟩,
    pageCache := [(2, serialize_trie_node trieNodeP), (1, serialize_trie_node trieRootNodeB)],
    cacheStats := ⟨0, 3⟩, quickMode := false, transactions := [], emptyFreeCount := 0 }

/-- The serialised trie nodes of the two-alias store, as cached by reads. -/
def serP : List Nat := serialize_trie_node trieNodeP

def serQ : List Nat := serialize_trie_node trieNodeQ

def serR : List Nat := serialize_trie_node trieRootNodeB

/-- `dbTwoAliases` after the trie walk resolving `"p"` (pages 1, 2 read). -/
def dbPResolved : DB :=
  { dbTwoAliases with pageCache := [(2, serP), (1, serR)], cacheStats := ⟨0, 2⟩ }

/-- ... after additionally reading the index page 0. -/
def dbPIndexRead : DB :=
  { dbTwoAliases with
      pageCache := [(0, serialize_index idxB), (2, serP), (1, serR)],
      cacheStats := ⟨0, 3⟩ }

/-- The post state of `get "p"` over `dbTwoAliases` (data page 4 read last). -/
def dbGetP : DB :=
  { dbTwoAliases with
      pageCache := [(4, [7]), (0, serialize_index idxB), (2, serP), (1, serR)],
      cacheStats := ⟨0, 4⟩ }

/-- `dbTwoAliases` after the trie walk resolving `"q"` (pages 1, 3 read). -/
def dbQResolved : DB :=
  { dbTwoAliases with pageCache := [(3, serQ), (1, serR)], cacheStats := ⟨0, 2⟩ }

/-- ... after additionally reading the index page 0. -/
def dbQIndexRead : DB :=
  { dbTwoAliases with
      pageCache := [(0, serialize_index idxB), (3, serQ), (1, serR)],
      cacheStats := ⟨0, 3⟩ }

/-- The post state of `get "q"` over `dbTwoAliases`. -/
def dbGetQ : DB :=
  { dbTwoAliases with
      pageCache := [(4, [7]), (0, serialize_index idxB), (3, serQ), (1, serR)],
      cacheStats := ⟨0, 4⟩ }

/-- Mid-delete state: `dbPIndexRead` after the chain walk freed page 4. -/
def dbChainFreed : DB :=
  { dbPIndexRead with
      pages := [indexPageB, triePageOf trieRootNodeB, triePageOf trieNodeP,
        triePageOf trieNodeQ, freedDataPage],
      freeRoot := ⟨4, 0⟩ }

/-- `dbAfterDeleteP` after the (still succeeding) trie walk resolving `"q"`:
page 1 is served from the cache, page 3 is read. -/
def dbQResolved2 : DB :=
  { dbAfterDeleteP with
      pageCache := [(3, serQ), (1, serR), (2, serP)],
      cacheStats := ⟨1, 4⟩ }

/-- ... after additionally reading the rewritten (empty) index page 0. -/
def dbQIndexRead2 : DB :=
  { dbAfterDeleteP with
      pageCache := [(0, serialize_index []), (3, serQ), (1, serR), (2, serP)],
      cacheStats := ⟨1, 5⟩ }

/-- The post state of `search_paths "a"` over `dbAfterWriteA`: the trie root
page is served from the cache, nothing else moves. -/
def dbSearchA : DB := { dbAfterWriteA with cacheStats := ⟨1, 2⟩ }

/-- A one-page store whose stored payload `[1]` does not match the recorded
CRC (the header says 0): the corrupted-page scenario. -/
def corruptPage : Page :=
  { header :=
      { crc := 0, version := 0, prevPageId := -1, nextPageId := -1,
        flags := FLAG_DATA_PAGE, dataLength := 1 },
    region := [1] }

def dbCorrupt : DB :=
  { pages := [corruptPage], indexRoot := ⟨-1, 0⟩, trieRoot := ⟨-1, 0⟩, freeRoot := ⟨-1, 0⟩,
    pageCache := [], cacheStats := ⟨0, 0⟩, quickMode := false, transactions := [],
    emptyFreeCount := 0 }

/-- The same corrupted store with quick-mode enabled. -/
def dbCorruptQuick : DB := { dbCorrupt with quickMode := true }

/-- The corrupted store with the (different) bytes `[5]` sitting in the page
cache for page 0: the cache-hit scenario. -/
def dbCachedCorrupt : DB := { dbCorrupt with pageCache := [(0, [5])] }

/-- A store with two open (empty) transactions, ids 0 and 1. -/
def dbTwoTx : DB := { dbEmptyIndex with transactions := [⟨[], []⟩, ⟨[], []⟩] }

/-- All alias paths recorded in the live document index of a store. -/
def live_paths (db : DB) : List (List Char) :=
  match read_index db with
  | .ok idx _ => idx.foldr (fun e acc => e.2.paths ++ acc) []
  | .err _ _ => []

/-- The spec's rejection condition on paths: empty, contains `..`, contains
`::`, or begins with `/` or `\`. -/
def PathRejected (p : List Char) : Prop :=
  p = [] ∨ (∃ l r, p = l ++ ['.', '.'] ++ r) ∨ (∃ l r, p = l ++ [':', ':'] ++ r) ∨
    (∃ t, p = '/' :: t) ∨ (∃ t, p = '\\' :: t)

set_option maxRecDepth 10000

/-! # Theorems

First the generic bridges between the executable definitions and their
propositional readings, then one theorem per claim of the specification. -/

theorem startsWithList_iff (s pat : List Char) :
    startsWithList s pat = true ↔ ∃ t, s = pat ++ t := by
  induction pat generalizing s with
  | nil => simp [startsWithList]
  | cons b bs ih =>
    cases s with
    | nil => simp [startsWithList]
    | cons a s' =>
      simp only [startsWithList, Bool.and_eq_true, beq_iff_eq, ih, List.cons_append,
        List.cons.injEq]
      constructor
      · rintro ⟨rfl, t, rfl⟩; exact ⟨t, rfl, rfl⟩
      · rintro ⟨t, rfl, rfl⟩; exact ⟨rfl, t, rfl⟩

theorem containsSeq_iff (s pat : List Char) :
    containsSeq s pat = true ↔ ∃ l r, s = l ++ pat ++ r := by
  induction s with
  | nil =>
    simp only [containsSeq, startsWithList_iff]
    constructor
    · rintro ⟨t, ht⟩
      exact ⟨[], t, by simpa using ht⟩
    · rintro ⟨l, r, h⟩
      obtain ⟨h1, h2⟩ := List.append_eq_nil.mp h.symm
      obtain ⟨h3, h4⟩ := List.append_eq_nil.mp h1
      exact ⟨[], by simp [h4]⟩
  | cons a s' ih =>
    simp only [containsSeq, Bool.or_eq_true, startsWithList_iff, ih]
    constructor
    · rintro (⟨t, ht⟩ | ⟨l, r, rfl⟩)
      · exact ⟨[], t, by simpa using ht⟩
      · exact ⟨a :: l, r, rfl⟩
    · rintro ⟨l, r, h⟩
      cases l with
      | nil => exact Or.inl ⟨r, by simpa using h⟩
      | cons x l' =>
        have h2 : a = x ∧ s' = l' ++ pat ++ r := by
          simpa [List.cons_append] using h
        exact Or.inr ⟨l', r, h2.2⟩

theorem pathRejected_iff (p : List Char) :
    PathRejected p ↔
      (p.isEmpty || containsSeq p ['.', '.'] || containsSeq p [':', ':'] ||
        startsWithList p ['/'] || startsWithList p ['\\']) = true := by
  simp only [PathRejected, Bool.or_eq_true, List.isEmpty_iff, containsSeq_iff,
    startsWithList_iff, List.singleton_append, List.append_assoc, List.cons_append,
    List.nil_append]
  simp only [or_assoc]

/-- Running a bound computation: first run `x`, then feed `k`, errors pass
through with their state. -/
theorem run_bind {α β : Type} (x : M α) (k : α → M β) (db : DB) :
    (x >>= k) db =
      match x db with
      | .ok a db1 => k a db1
      | .err e db1 => .err e db1 := rfl

/-- A failing validation at the head of a `do` block fails the whole
operation and leaves the state unchanged. -/
theorem run_bind_liftE_error {α β : Type} (x : Except Err α) (k : α → M β) (e : Err)
    (db : DB) (h : x = .error e) : (liftE x >>= k) db = .err e db := by
  subst h; rfl

theorem run_ok_of_bind {α β : Type} {x : M α} {k : α → M β} {db db2 : DB} {b : β}
    (h : (x >>= k) db = .ok b db2) :
    ∃ a db1, x db = .ok a db1 ∧ k a db1 = .ok b db2 := by
  rw [run_bind] at h
  cases hx : x db with
  | ok a db1 => rw [hx] at h; exact ⟨a, db1, rfl, h⟩
  | err e db1 => rw [hx] at h; cases h

/-- Stepping a concrete run: once the first operation's result is known, the
rest of the pipeline continues from its post state.  (Used to evaluate the
scenario pipelines one operation at a time, each step being a small closed
computation.) -/
theorem run_bind_eq {α β : Type} (x : M α) (k : α → M β) (db db1 : DB) (a : α) (b : Res β)
    (hx : x db = .ok a db1) (hk : k a db1 = b) : (x >>= k) db = b := by
  rw [run_bind, hx]
  exact hk

/-- Claim C8: the path-taking operations reject a path with `InvalidInput`
exactly when it is empty, contains `..`, contains `::`, or begins with `/` or
`\`; every other string passes validation, and on a rejected path each of
`write_document`, `get`, `search_paths`, `delete_by_path` and
`bind_addon_path` fails with `InvalidInput` before touching the store. -/
theorem validate_path_spec :
    (∀ p : List Char,
      validate_path p = .error ⟨.invalidInput, "Invalid path"⟩ ↔ PathRejected p) ∧
    (∀ p : List Char, ¬ PathRejected p → validate_path p = .ok ()) ∧
    (∀ (db : DB) (uid data : List Nat) (p : List Char) (fuel : Nat) (b : Bool),
      PathRejected p →
        write_document uid p data db = .err ⟨.invalidInput, "Invalid path"⟩ db ∧
        get p fuel db = .err ⟨.invalidInput, "Invalid path"⟩ db ∧
        search_paths p fuel db = .err ⟨.invalidInput, "Invalid path"⟩ db ∧
        delete_by_path p fuel db = .err ⟨.invalidInput, "Invalid path"⟩ db ∧
        bind_addon_path p b fuel db = .err ⟨.invalidInput, "Invalid path"⟩ db) := by
  have hpos : ∀ p : List Char, PathRejected p →
      validate_path p = .error ⟨.invalidInput, "Invalid path"⟩ := by
    intro p hp
    unfold validate_path
    rw [if_pos ((pathRejected_iff p).mp hp)]
  have hneg : ∀ p : List Char, ¬ PathRejected p → validate_path p = .ok () := by
    intro p hp
    unfold validate_path
    rw [if_neg (fun hc => hp ((pathRejected_iff p).mpr hc))]
  refine ⟨?_, hneg, ?_⟩
  · intro p
    constructor
    · intro h
      by_contra hnp
      rw [hneg p hnp] at h
      cases h
    · exact hpos p
  · intro db uid data p fuel b hp
    have h := hpos p hp
    refine ⟨?_, ?_, ?_, ?_, ?_⟩
    · unfold write_document
      exact run_bind_liftE_error _ _ _ _ h
    · unfold get
      exact run_bind_liftE_error _ _ _ _ h
    · unfold search_paths
      exact run_bind_liftE_error _ _ _ _ h
    · unfold delete_by_path
      exact run_bind_liftE_error _ _ _ _ h
    · unfold bind_addon_path
      exact run_bind_liftE_error _ _ _ _ h

/-- Witness for C8 at concrete inputs. -/
theorem validate_path_spec_witness :
    validate_path [':', ':'] = .error ⟨.invalidInput, "Invalid path"⟩ ∧
    validate_path ['a'] = .ok () ∧
    get ['/', 'a'] 5 dbEmptyIndex = .err ⟨.invalidInput, "Invalid path"⟩ dbEmptyIndex := by
  refine ⟨?_, ?_, ?_⟩
  · exact (validate_path_spec.1 [':', ':']).mpr (Or.inr (Or.inr (Or.inl ⟨[], [], rfl⟩)))
  · exact validate_path_spec.2.1 ['a']
      (fun h => absurd ((pathRejected_iff ['a']).mp h) (by decide))
  · exact (validate_path_spec.2.2 dbEmptyIndex [] [] ['/', 'a'] 5 false
      (Or.inr (Or.inr (Or.inr (Or.inl ⟨['a'], rfl⟩))))).2.1

theorem usizeOfI64_natCast (i : Nat) (h : i < 2 ^ 64) : usizeOfI64 (i : Int) = i := by
  unfold usizeOfI64
  rw [Int.emod_eq_of_lt (by positivity) (by exact_mod_cast h)]
  exact Int.toNat_natCast i

/-- Claim C10: transaction ids are positions in the live-transaction list:
`begin_transaction` returns the current list length and pushes a fresh empty
transaction; `commit_transaction` and `rollback_transaction` fail with
`InvalidInput` exactly when the id reaches the list length (for commit, shown
on transactions with empty intent lists — the only ones the source ever
creates, since nothing populates a transaction), remove the transaction at
that position otherwise, and thereby shift which transaction every larger id
refers to. -/
theorem transaction_ids_are_positions :
    (∀ db : DB, begin_transaction db =
      .ok (db.transactions.length : Int)
        { db with transactions := db.transactions ++ [{ writes := [], frees := [] }] }) ∧
    (∀ (db : DB) (i : Nat), i < 2 ^ 64 →
      (rollback_transaction (i : Int) db = .err ⟨.invalidInput, "Invalid transaction ID"⟩ db ↔
        db.transactions.length ≤ i)) ∧
    (∀ (db : DB) (i : Nat), i < 2 ^ 64 → i < db.transactions.length →
      rollback_transaction (i : Int) db =
        .ok () { db with transactions := db.transactions.eraseIdx i }) ∧
    (∀ (db : DB) (i : Nat) (tx : Transaction), i < 2 ^ 64 →
      (db.transactions.length ≤ i →
        commit_transaction (i : Int) db = .err ⟨.invalidInput, "Invalid transaction ID"⟩ db) ∧
      (db.transactions[i]? = some tx → tx.writes = [] → tx.frees = [] →
        commit_transaction (i : Int) db =
          .ok () { db with transactions := db.transactions.eraseIdx i })) ∧
    (∀ (db db' : DB) (i j : Nat), i < 2 ^ 64 →
      rollback_transaction (i : Int) db = .ok () db' → i < j →
      db'.transactions[j - 1]? = db.transactions[j]?) := by
  refine ⟨fun db => rfl, ?_, ?_, ?_, ?_⟩
  · intro db i h64
    unfold rollback_transaction
    rw [usizeOfI64_natCast i h64]
    by_cases hle : db.transactions.length ≤ i
    · rw [if_pos hle]
      simp [hle]
    · rw [if_neg hle]
      simp [hle]
  · intro db i h64 hlt
    unfold rollback_transaction
    rw [usizeOfI64_natCast i h64, if_neg (not_le.mpr hlt)]
  · intro db i tx h64
    constructor
    · intro hle
      unfold commit_transaction
      rw [usizeOfI64_natCast i h64, if_pos hle]
    · intro hget hw hf
      have hlt : i < db.transactions.length := by
        by_contra hge
        rw [List.getElem?_eq_none (le_of_not_lt hge)] at hget
        cases hget
      unfold commit_transaction
      rw [usizeOfI64_natCast i h64, if_neg (not_le.mpr hlt)]
      simp only [hget, hw, hf]
      rfl
  · intro db db' i j h64 hroll hij
    unfold rollback_transaction at hroll
    rw [usizeOfI64_natCast i h64] at hroll
    split at hroll
    · cases hroll
    · injection hroll with h1 h2
      subst h2
      show (db.transactions.eraseIdx i)[j - 1]? = db.transactions[j]?
      rw [List.getElem?_eraseIdx_of_ge _ _ _ (by omega)]
      congr 1
      omega

/-- Witness for C10 on a store with two open transactions. -/
theorem transaction_ids_are_positions_witness :
    begin_transaction dbEmptyIndex = .ok 0 { dbEmptyIndex with transactions := [⟨[], []⟩] } ∧
    rollback_transaction 2 dbTwoTx = .err ⟨.invalidInput, "Invalid transaction ID"⟩ dbTwoTx ∧
    rollback_transaction 0 dbTwoTx = .ok () { dbTwoTx with transactions := [⟨[], []⟩] } ∧
    commit_transaction 0 dbTwoTx = .ok () { dbTwoTx with transactions := [⟨[], []⟩] } ∧
    ({ dbTwoTx with transactions := [⟨[], []⟩] } : DB).transactions[0]? =
      dbTwoTx.transactions[1]? := by
  refine ⟨?_, ?_, ?_, ?_, ?_⟩
  · exact transaction_ids_are_positions.1 dbEmptyIndex
  · exact (transaction_ids_are_positions.2.1 dbTwoTx 2 (by decide)).mpr (by decide)
  · exact transaction_ids_are_positions.2.2.1 dbTwoTx 0 (by decide) (by decide)
  · exact (transaction_ids_are_positions.2.2.2.1 dbTwoTx 0 ⟨[], []⟩ (by decide)).2 rfl rfl rfl
  · exact transaction_ids_are_positions.2.2.2.2 dbTwoTx
      { dbTwoTx with transactions := [⟨[], []⟩] } 0 1 (by decide)
      (transaction_ids_are_positions.2.2.1 dbTwoTx 0 (by decide) (by decide)) (by decide)

/-- Claim C4: on a cache miss with quick-mode off, a page whose stored
payload does not match the CRC recorded in its header fails with the
`InvalidData` error "CRC mismatch" (surfaced to the caller, since `Res.err`
propagates through every bind); with quick-mode on the same read performs no
CRC comparison and returns the stored bytes. -/
theorem read_raw_page_crc_check :
    ∀ (db : DB) (id : Int) (pg : Page), 0 ≤ id → id < MAX_PAGES →
      cacheLookup db.pageCache id = none →
      db.pages[id.toNat]? = some pg →
      0 ≤ pg.header.dataLength →
      compute_crc (readRegion pg.region pg.header.dataLength.toNat) ≠ pg.header.crc →
      (db.quickMode = false →
        read_raw_page id db = .err ⟨.invalidData, "CRC mismatch"⟩
          { db with cacheStats := { db.cacheStats with misses := db.cacheStats.misses + 1 } }) ∧
      (db.quickMode = true →
        read_raw_page id db =
          .ok (readRegion pg.region pg.header.dataLength.toNat)
            { db with
                cacheStats := { db.cacheStats with misses := db.cacheStats.misses + 1 },
                pageCache := cachePut db.pageCache id
                  (readRegion pg.region pg.header.dataLength.toNat) }) := by
  intro db id pg h0 h1 hc hp hlen hcrc
  obtain ⟨pages, ir, tr, fr, pc, ⟨hits, misses⟩, qm, txs, ec⟩ := db
  dsimp only at hc hp ⊢
  have hb : ¬((decide (id < 0) || decide (MAX_PAGES ≤ id)) = true) := by
    simp only [Bool.or_eq_true, decide_eq_true_eq, not_or]
    exact ⟨not_lt.mpr h0, not_le.mpr h1⟩
  constructor
  · intro hq
    subst hq
    have hcond : (!false && (compute_crc (readRegion pg.region pg.header.dataLength.toNat) !=
        pg.header.crc)) = true := by
      simp only [Bool.not_false, Bool.true_and]
      exact bne_iff_ne.mpr hcrc
    unfold read_raw_page
    rw [if_neg hb, hc]
    dsimp only
    rw [hp]
    dsimp only
    rw [if_neg (not_lt.mpr hlen), if_pos hcond]
  · intro hq
    subst hq
    have hcond : ¬((!true && (compute_crc (readRegion pg.region pg.header.dataLength.toNat) !=
        pg.header.crc)) = true) := by
      simp only [Bool.not_true, Bool.false_and]
      exact Bool.false_ne_true
    unfold read_raw_page
    rw [if_neg hb, hc]
    dsimp only
    rw [hp]
    dsimp only
    rw [if_neg (not_lt.mpr hlen), if_neg hcond]

/-- Witness for C4 on the corrupted one-page store. -/
theorem read_raw_page_crc_check_witness :
    read_raw_page 0 dbCorrupt = .err ⟨.invalidData, "CRC mismatch"⟩
      { dbCorrupt with cacheStats :=
          { dbCorrupt.cacheStats with misses := dbCorrupt.cacheStats.misses + 1 } } ∧
    read_raw_page 0 dbCorruptQuick =
      .ok (readRegion corruptPage.region corruptPage.header.dataLength.toNat)
        { dbCorruptQuick with
            cacheStats :=
              { dbCorruptQuick.cacheStats with misses := dbCorruptQuick.cacheStats.misses + 1 },
            pageCache := cachePut dbCorruptQuick.pageCache 0
              (readRegion corruptPage.region corruptPage.header.dataLength.toNat) } := by
  constructor
  · exact (read_raw_page_crc_check dbCorrupt 0 corruptPage (by decide) (by decide) rfl rfl
      (by decide) (by decide)).1 rfl
  · exact (read_raw_page_crc_check dbCorruptQuick 0 corruptPage (by decide) (by decide) rfl rfl
      (by decide) (by decide)).2 rfl

/-- Claim C9: a page id present in the page cache is served from the cache:
the cached bytes come back unchanged, the hit counter is bumped, the cache is
reordered, and nothing else — in particular no page bytes and no CRC are
consulted, whatever the quick-mode flag says (the theorem places no
constraint on the page contents or on `quickMode`); conversely an
`InvalidData` (CRC) failure can only arise when the id misses the cache. -/
theorem read_raw_page_cache_hit :
    (∀ (db : DB) (id : Int) (v : List Nat), 0 ≤ id → id < MAX_PAGES →
      cacheLookup db.pageCache id = some v →
      read_raw_page id db =
        .ok v { db with pageCache := cacheTouch db.pageCache id,
                        cacheStats := { db.cacheStats with hits := db.cacheStats.hits + 1 } }) ∧
    (∀ (db : DB) (id : Int) (e : Err) (db' : DB),
      read_raw_page id db = .err e db' → e.kind = .invalidData →
      cacheLookup db.pageCache id = none) := by
  constructor
  · intro db id v h0 h1 hc
    obtain ⟨pages, ir, tr, fr, pc, ⟨hits, misses⟩, qm, txs, ec⟩ := db
    dsimp only at hc ⊢
    have hb : ¬((decide (id < 0) || decide (MAX_PAGES ≤ id)) = true) := by
      simp only [Bool.or_eq_true, decide_eq_true_eq, not_or]
      exact ⟨not_lt.mpr h0, not_le.mpr h1⟩
    unfold read_raw_page
    rw [if_neg hb, hc]
  · intro db id e db' h he
    cases hc : cacheLookup db.pageCache id with
    | none => rfl
    | some v =>
      exfalso
      unfold read_raw_page at h
      split at h
      · injection h with h1 h2
        rw [← h1] at he
        simp at he
      · rw [hc] at h
        cases h

/-- Witness for C9: the corrupted page is served from the cache with the
(different) cached bytes, quick-mode off. -/
theorem read_raw_page_cache_hit_witness :
    read_raw_page 0 dbCachedCorrupt =
      .ok [5] { dbCachedCorrupt with
          pageCache := cacheTouch dbCachedCorrupt.pageCache 0,
          cacheStats :=
            { dbCachedCorrupt.cacheStats with hits := dbCachedCorrupt.cacheStats.hits + 1 } } :=
  read_raw_page_cache_hit.1 dbCachedCorrupt 0 [5] (by decide) (by decide) rfl

/-- Claim C1 (code bug): over a store with an empty index rooted at page 0,
`write_document("a", [1])` succeeds and records path `"a"` in the index, yet
`get("a")` does not return `[1]`: it fails with `NotFound`, because
`trie_insert` never records the path (its split/descend cases are omitted in
the source), so the trie lookup inside `get` cannot resolve the path. -/
theorem write_then_get_not_found :
    write_document uuidA ['a'] [1] dbEmptyIndex = .ok uuidA dbAfterWriteA ∧
    live_paths dbAfterWriteA = [['a']] ∧
    (get ['a'] 10 dbAfterWriteA).errOf = some ⟨.notFound, "Path not found"⟩ := by
  refine ⟨?_, ?_, ?_⟩ <;> decide

/-- Claim C3 (code bug): begin a transaction, `write_document("x", [1])`
inside it, roll back.  The rollback leaves `get("x")` failing with `NotFound`
(though only because the write never became visible, the trie being
inoperative), but the two pages allocated by the write are *not* returned to
the free list: the store grew from 1 page to 3 and the free-list root is
still absent, so the allocated page count does not return to the baseline —
`write_document` writes pages directly even inside a transaction and
`rollback_transaction` merely discards the (never populated) intent lists. -/
theorem rollback_does_not_reclaim_pages :
    begin_transaction dbEmptyIndex = .ok 0 dbTxBegan ∧
    write_document uuidA ['x'] [1] dbTxBegan = .ok uuidA dbTxWrote ∧
    rollback_transaction 0 dbTxWrote = .ok () dbTxDone ∧
    dbEmptyIndex.pages.length = 1 ∧
    dbTxDone.pages.length = 3 ∧
    dbTxDone.freeRoot.pageId = -1 ∧
    dbTxDone.transactions = [] ∧
    (get ['x'] 10 dbTxDone).errOf = some ⟨.notFound, "Path not found"⟩ := by
  refine ⟨?_, ?_, ?_, ?_, ?_, ?_, ?_, ?_⟩ <;> decide

/-- Claim C5 (code bug): on a store holding one document bound to the two
alias paths `"p"` and `"q"` (both retrievable), deleting the alias `"p"`
destroys the document although another alias still references it:
`delete_by_path` removes the index entry and frees the whole chain without
consulting the remaining aliases, so `get("q")` then fails with `NotFound`
and the document's data page sits on the free list. -/
theorem delete_one_alias_destroys_document :
    get ['p'] 4 dbTwoAliases = .ok [7] dbGetP ∧
    get ['q'] 4 dbTwoAliases = .ok [7] dbGetQ ∧
    delete_by_path ['p'] 4 dbTwoAliases = .ok () dbAfterDeleteP ∧
    get ['q'] 4 dbAfterDeleteP = .err ⟨.notFound, "Document not found"⟩ dbQIndexRead2 ∧
    dbAfterDeleteP.freeRoot.pageId = 4 ∧
    live_paths dbAfterDeleteP = [] := by
  refine ⟨?_, ?_, ?_, ?_, by decide, by decide⟩
  · unfold get
    refine run_bind_eq _ _ _ _ _ _
      (show liftE (validate_path ['p']) dbTwoAliases = .ok () dbTwoAliases from rfl) ?_
    refine run_bind_eq _ _ _ _ _ _
      (show get_document_id_by_path ['p'] 4 dbTwoAliases = .ok uuidB dbPResolved from
        by decide) ?_
    refine run_bind_eq _ _ _ _ _ _
      (show read_index dbPResolved = .ok idxB dbPIndexRead from by decide) ?_
    decide
  · unfold get
    refine run_bind_eq _ _ _ _ _ _
      (show liftE (validate_path ['q']) dbTwoAliases = .ok () dbTwoAliases from rfl) ?_
    refine run_bind_eq _ _ _ _ _ _
      (show get_document_id_by_path ['q'] 4 dbTwoAliases = .ok uuidB dbQResolved from
        by decide) ?_
    refine run_bind_eq _ _ _ _ _ _
      (show read_index dbQResolved = .ok idxB dbQIndexRead from by decide) ?_
    decide
  · unfold delete_by_path
    refine run_bind_eq _ _ _ _ _ _
      (show liftE (validate_path ['p']) dbTwoAliases = .ok () dbTwoAliases from rfl) ?_
    refine run_bind_eq _ _ _ _ _ _
      (show get_document_id_by_path ['p'] 4 dbTwoAliases = .ok uuidB dbPResolved from
        by decide) ?_
    refine run_bind_eq _ _ _ _ _ _
      (show read_index dbPResolved = .ok idxB dbPIndexRead from by decide) ?_
    refine run_bind_eq _ _ _ _ _ _
      (show freeChainWalk 4 4 dbPIndexRead = .ok () dbChainFreed from by decide) ?_
    refine run_bind_eq _ _ _ _ _ _
      (show deletePathsLoop [['p'], ['q']] dbChainFreed = .ok () dbChainFreed from
        by decide) ?_
    refine run_bind_eq _ _ _ _ _ _
      (show getDb dbChainFreed = .ok dbChainFreed dbChainFreed from rfl) ?_
    decide
  · unfold get
    refine run_bind_eq _ _ _ _ _ _
      (show liftE (validate_path ['q']) dbAfterDeleteP = .ok () dbAfterDeleteP from rfl) ?_
    refine run_bind_eq _ _ _ _ _ _
      (show get_document_id_by_path ['q'] 4 dbAfterDeleteP = .ok uuidB dbQResolved2 from
        by decide) ?_
    refine run_bind_eq _ _ _ _ _ _
      (show read_index dbQResolved2 = .ok [] dbQIndexRead2 from by decide) ?_
    decide

/-- Claim C7 (code bug): `write_raw_page` stamps every page it writes with
the data flag `0x01`, whatever structure the page belongs to.  Concretely,
after `write_document("a", [1])` the trie root page written by `trie_insert`
(page 2, whose payload deserialises as a trie node) carries flag `0x01`, not
the trie flag `0x02`, and the rewritten index page 0 also carries `0x01`,
not the index flag `0x08`. -/
theorem trie_page_written_with_data_flag :
    (deserialize_trie_node (((dbAfterWriteA.pages[2]?).map Page.region).getD [])).toOption =
      some { edge := [], parentPageId := -1, selfPageId := 2, documentId := none, children := [] } ∧
    (dbAfterWriteA.pages[2]?).map (fun p => p.header.flags) = some FLAG_DATA_PAGE ∧
    (dbAfterWriteA.pages[0]?).map (fun p => p.header.flags) = some FLAG_DATA_PAGE ∧
    FLAG_DATA_PAGE ≠ FLAG_TRIE_PAGE ∧ FLAG_DATA_PAGE ≠ FLAG_INDEX_PAGE := by
  refine ⟨?_, ?_, ?_, ?_, ?_⟩ <;> decide

theorem rdBytes_ok (n : Nat) (l : List Nat) (h : ¬ l.length < n) :
    rdBytes n l = .ok (l.take n, l.drop n) := by
  unfold rdBytes
  rw [if_neg h]

theorem rdBytes_err (n : Nat) (l : List Nat) (h : l.length < n) :
    rdBytes n l = .error ⟨.unexpectedEof, "failed to fill whole buffer"⟩ := by
  unfold rdBytes
  rw [if_pos h]

theorem except_bind_ok {α β : Type} (a : α) (k : α → Except Err β) :
    (Except.ok a >>= k) = k a := rfl

theorem except_bind_err {α β : Type} (e : Err) (k : α → Except Err β) :
    (Except.error e >>= k) = (Except.error e : Except Err β) := rfl

theorem leNat_replicate_zero (w m : Nat) : leNat w (List.replicate m 0) = 0 := by
  induction w generalizing m with
  | zero => rfl
  | succ w ih =>
    cases m with
    | zero => rfl
    | succ m => simp [List.replicate, leNat, ih]

theorem leNat_pad (w : Nat) (bs : List Nat) (m : Nat) :
    leNat w (bs ++ List.replicate m 0) = leNat w bs := by
  induction w generalizing bs with
  | zero => rfl
  | succ w ih =>
    cases bs with
    | nil =>
      rw [List.nil_append, leNat_replicate_zero]
      cases m <;> rfl
    | cons b t => simp [leNat, ih]

theorem leNat_take_of_le (w : Nat) (n : Nat) (bs : List Nat) (h : w ≤ n) :
    leNat w (bs.take n) = leNat w bs := by
  induction w generalizing n bs with
  | zero => rfl
  | succ w ih =>
    cases bs with
    | nil => simp
    | cons b t =>
      cases n with
      | zero => omega
      | succ n => simp [List.take, leNat, ih n t (by omega)]

/-- The 32-byte read buffer of the open path. -/
theorem sbBuf_length (bs : List Nat) : (sbBuf bs).length = 32 := by
  unfold sbBuf
  rw [List.length_append, List.length_take, List.length_replicate]
  omega

theorem leNat_sbBuf (bs : List Nat) : leNat 8 (sbBuf bs) = leNat 8 bs := by
  unfold sbBuf
  rw [leNat_pad, leNat_take_of_le 8 32 bs (by omega)]

/-- Claim C6 (amended): on open, a zero-length file gets a fresh superblock —
magic plus the three roots set to -1 — and open proceeds; a nonempty file
whose stored magic does not match fails with the `InvalidData` error "Invalid
DB magic" (the open error the interface table lists), no fresh superblock
being written; and a nonempty file whose magic *does* match also fails — with
an end-of-file error — because the open path buffers only 32 bytes while
magic plus three 12-byte versioned roots occupy 44, so the roots are never
actually read and trusted. -/
theorem open_superblock_behavior :
    (open_superblock [] = .ok (⟨-1, 0⟩, ⟨-1, 0⟩, ⟨-1, 0⟩,
      MAGIC ++ intLE 8 (-1) ++ intLE 4 0 ++ intLE 8 (-1) ++ intLE 4 0 ++
        intLE 8 (-1) ++ intLE 4 0)) ∧
    (∀ bs : List Nat, bs ≠ [] → leNat 8 bs ≠ leNat 8 MAGIC →
      open_superblock bs = .error ⟨.invalidData, "Invalid DB magic"⟩) ∧
    (∀ bs : List Nat, bs ≠ [] → leNat 8 bs = leNat 8 MAGIC →
      open_superblock bs = .error ⟨.unexpectedEof, "failed to fill whole buffer"⟩) := by
  refine ⟨by decide, ?_, ?_⟩
  · intro bs hne hmag
    have h32 := sbBuf_length bs
    have hb0 : ¬ (sbBuf bs).length < 8 := by omega
    have hEq : leNat 8 ((sbBuf bs).take 8) = leNat 8 bs := by
      rw [leNat_take_of_le 8 8 _ (le_refl 8), leNat_sbBuf]
    have hmagNe : leNat 8 ((sbBuf bs).take 8) ≠ leNat 8 MAGIC := by
      rw [hEq]
      exact hmag
    unfold open_superblock
    rw [if_neg (by simpa [List.isEmpty_iff] using hne)]
    rw [rdBytes_ok 8 (sbBuf bs) hb0, except_bind_ok]
    dsimp only
    rw [if_pos hmagNe]
  · intro bs hne hmag
    have h32 := sbBuf_length bs
    have hb0 : ¬ (sbBuf bs).length < 8 := by omega
    have hb1 : ¬ ((sbBuf bs).drop 8).length < 8 := by
      simp only [List.length_drop]
      omega
    have hb2 : ¬ (((sbBuf bs).drop 8).drop 8).length < 4 := by
      simp only [List.length_drop]
      omega
    have hb3 : ¬ ((((sbBuf bs).drop 8).drop 8).drop 4).length < 8 := by
      simp only [List.length_drop]
      omega
    have hb4 : ¬ (((((sbBuf bs).drop 8).drop 8).drop 4).drop 8).length < 4 := by
      simp only [List.length_drop]
      omega
    have hb5 : ((((((sbBuf bs).drop 8).drop 8).drop 4).drop 8).drop 4).length < 8 := by
      simp only [List.length_drop]
      omega
    have hmag8 : leNat 8 ((sbBuf bs).take 8) = leNat 8 MAGIC := by
      rw [leNat_take_of_le 8 8 _ (le_refl 8), leNat_sbBuf]
      exact hmag
    unfold open_superblock
    rw [if_neg (by simpa [List.isEmpty_iff] using hne)]
    rw [rdBytes_ok 8 (sbBuf bs) hb0, except_bind_ok]
    dsimp only
    rw [if_neg (not_not_intro hmag8)]
    rw [rdBytes_ok 8 ((sbBuf bs).drop 8) hb1, except_bind_ok]
    dsimp only
    rw [rdBytes_ok 4 (((sbBuf bs).drop 8).drop 8) hb2, except_bind_ok]
    dsimp only
    rw [rdBytes_ok 8 ((((sbBuf bs).drop 8).drop 8).drop 4) hb3, except_bind_ok]
    dsimp only
    rw [rdBytes_ok 4 (((((sbBuf bs).drop 8).drop 8).drop 4).drop 8) hb4, except_bind_ok]
    dsimp only
    rw [rdBytes_err 8 ((((((sbBuf bs).drop 8).drop 8).drop 4).drop 8).drop 4) hb5,
      except_bind_err]

/-- Counterexample for C6: a nonempty file with a wrong magic makes open fail
with `InvalidData` — no fresh superblock is written and open does not
succeed. -/
theorem open_superblock_bad_magic_cex :
    open_superblock [0] = .error ⟨.invalidData, "Invalid DB magic"⟩ := by decide

/-- Witness for C6 at concrete files. -/
theorem open_superblock_behavior_witness :
    open_superblock [7] = .error ⟨.invalidData, "Invalid DB magic"⟩ ∧
    open_superblock (MAGIC ++ List.replicate 24 0) =
      .error ⟨.unexpectedEof, "failed to fill whole buffer"⟩ := by
  constructor
  · exact open_superblock_behavior.2.1 [7] (by decide) (by decide)
  · exact open_superblock_behavior.2.2 (MAGIC ++ List.replicate 24 0) (by decide) (by decide)

theorem filter_starts {q r : List Char} {rs : List (List Char)}
    (h : r ∈ rs.filter (fun x => startsWithList x q)) : ∃ t, r = q ++ t :=
  (startsWithList_iff r q).mp ((List.mem_filter.mp h).2)

/-- Every path returned by the walk of `search_paths` starts with the query:
both return points filter by `startsWithList`. -/
theorem searchWalk_sound (fuel : Nat) :
    ∀ (q rem : List Char) (pid : Int) (db db' : DB) (rs : List (List Char)),
      searchWalk fuel q pid rem db = .ok rs db' → ∀ r ∈ rs, ∃ t, r = q ++ t := by
  induction fuel with
  | zero =>
    intro q rem pid db db' rs h
    simp [searchWalk, throwM] at h
  | succ f ih =>
    intro q rem pid db db' rs h r hr
    cases rem with
    | nil =>
      rw [searchWalk] at h
      obtain ⟨bytes, db1, h1, h⟩ := run_ok_of_bind h
      obtain ⟨node, db2, h2, h⟩ := run_ok_of_bind h
      obtain ⟨results, db3, h3, h⟩ := run_ok_of_bind h
      have h' : Res.ok (results.filter (fun x => startsWithList x q)) db3 = Res.ok rs db' := h
      injection h' with hrs hdb
      exact filter_starts (hrs ▸ hr)
    | cons c rest =>
      rw [searchWalk] at h
      obtain ⟨bytes, db1, h1, h⟩ := run_ok_of_bind h
      obtain ⟨node, db2, h2, h⟩ := run_ok_of_bind h
      split at h
      · cases hd : (c :: rest).drop node.edge.length with
        | nil =>
          rw [hd] at h
          obtain ⟨results, db3, h3, h⟩ := run_ok_of_bind h
          have h' : Res.ok (results.filter (fun x => startsWithList x q)) db3 =
            Res.ok rs db' := h
          injection h' with hrs hdb
          exact filter_starts (hrs ▸ hr)
        | cons c2 rest2 =>
          rw [hd] at h
          have h' : (match childGet node.children c2 with
              | some cid => searchWalk f q cid (c2 :: rest2)
              | none => pure ([] : List (List Char))) db2 = Res.ok rs db' := h
          cases hcg : childGet node.children c2 with
          | some cid =>
            rw [hcg] at h'
            exact ih q (c2 :: rest2) cid db2 db' rs h' r hr
          | none =>
            rw [hcg] at h'
            have hres : Res.ok ([] : List (List Char)) db2 = Res.ok rs db' := h'
            injection hres with hrs hdb
            rw [← hrs] at hr
            cases hr
      · have h' : Res.ok ([] : List (List Char)) db2 = Res.ok rs db' := h
        injection h' with hrs hdb
        rw [← hrs] at hr
        cases hr

/-- Claim C2 (amended): `search_paths` rejects the empty prefix with
`InvalidInput` instead of listing every live path; for any accepted prefix
`Q` it returns only paths that start with `Q` (the caller-side filter admits
no extras), but it is not complete: after a successful
`write_document("a", [1])` the path `"a"` is live in the index, yet
`search_paths("a")` returns the empty list, the source's trie insert never
having recorded the path. -/
theorem search_paths_sound_not_complete :
    (∀ (db : DB) (fuel : Nat),
      search_paths [] fuel db = .err ⟨.invalidInput, "Invalid path"⟩ db) ∧
    (∀ (db db' : DB) (q : List Char) (fuel : Nat) (rs : List (List Char)),
      search_paths q fuel db = .ok rs db' → ∀ r ∈ rs, ∃ t, r = q ++ t) ∧
    live_paths dbAfterWriteA = [['a']] ∧
    search_paths ['a'] 4 dbAfterWriteA = .ok [] dbSearchA := by
  refine ⟨?_, ?_, by decide, ?_⟩
  · intro db fuel
    unfold search_paths
    exact run_bind_liftE_error _ _ _ _ rfl
  · intro db db' q fuel rs h r hr
    unfold search_paths at h
    obtain ⟨u, db1, h1, h⟩ := run_ok_of_bind h
    obtain ⟨db0, db2, h2, h⟩ := run_ok_of_bind h
    have h2' : Res.ok db1 db1 = Res.ok db0 db2 := h2
    injection h2' with ha hb
    subst ha
    subst hb
    split at h
    · have h' : Res.ok ([] : List (List Char)) db1 = Res.ok rs db' := h
      injection h' with hrs hdb
      rw [← hrs] at hr
      cases hr
    · exact searchWalk_sound fuel q q.reverse db1.trieRoot.pageId db1 db' rs h r hr
  · unfold search_paths
    refine run_bind_eq _ _ _ _ _ _
      (show liftE (validate_path ['a']) dbAfterWriteA = .ok () dbAfterWriteA from rfl) ?_
    refine run_bind_eq _ _ _ _ _ _
      (show getDb dbAfterWriteA = .ok dbAfterWriteA dbAfterWriteA from rfl) ?_
    decide

/-- Witness for C2's amended statement: the empty prefix is rejected on a
concrete store, and the soundness conjunct applied to the concrete run
`search_paths "a"` over the post-write store. -/
theorem search_paths_sound_not_complete_witness :
    search_paths [] 3 dbEmptyIndex = .err ⟨.invalidInput, "Invalid path"⟩ dbEmptyIndex ∧
    (∀ r ∈ ([] : List (List Char)), ∃ t, r = ['a'] ++ t) := by
  constructor
  · exact search_paths_sound_not_complete.1 dbEmptyIndex 3
  · exact search_paths_sound_not_complete.2.1 dbAfterWriteA dbSearchA ['a'] 4 []
      search_paths_sound_not_complete.2.2.2

/-- Counterexample for C2 as stated: on a store with live paths `"p"` and
`"q"`, `search_paths("")` does not return the set of live paths — it fails
with `InvalidInput`, the empty string being rejected by path validation. -/
theorem search_paths_empty_rejected_cex :
    live_paths dbTwoAliases = [['p'], ['q']] ∧
    search_paths [] 10 dbTwoAliases = .err ⟨.invalidInput, "Invalid path"⟩ dbTwoAliases :=
  ⟨by decide, by decide⟩

end StreamDB
